import Mathlib

/-
  Verification of the pyblitz repository: a shallow embedding of its
  OpenAPI parser (endpoint tree, reference resolver), its code generator
  templates, and its runtime response transformation, with theorems
  settling the frozen claims about them.

  Python strings in the parser component are modelled as lists of
  characters (`Str`); Python dicts as association lists with
  insertion-order-preserving, last-write-wins updates, matching CPython
  dict semantics.
-/

set_option synthInstance.maxSize 512

namespace Pyblitz

/-! ## Python dictionaries

CPython dicts preserve insertion order; assigning to an existing key
replaces the value in place (the key keeps its position), assigning to a
fresh key appends it. -/

def dictGet {κ α : Type} [DecidableEq κ] (k : κ) : List (κ × α) → Option α
  | [] => none
  | (k', v) :: rest => if k' = k then some v else dictGet k rest

def dictSet {κ α : Type} [DecidableEq κ] (k : κ) (v : α) : List (κ × α) → List (κ × α)
  | [] => [(k, v)]
  | (k', v') :: rest => if k' = k then (k, v) :: rest else (k', v') :: dictSet k v rest

theorem dictGet_dictSet_self {κ α : Type} [DecidableEq κ] (k : κ) (v : α)
    (d : List (κ × α)) : dictGet k (dictSet k v d) = some v := by
  induction d with
  | nil => simp [dictGet, dictSet]
  | cons kv rest ih =>
    obtain ⟨k', v'⟩ := kv
    by_cases h : k' = k
    · simp [dictGet, dictSet, h]
    · simp [dictGet, dictSet, h, ih]

theorem dictSet_dictSet_self {κ α : Type} [DecidableEq κ] (k : κ) (v₁ v₂ : α)
    (d : List (κ × α)) : dictSet k v₂ (dictSet k v₁ d) = dictSet k v₂ d := by
  induction d with
  | nil => simp [dictSet]
  | cons kv rest ih =>
    obtain ⟨k', v'⟩ := kv
    by_cases h : k' = k
    · simp [dictSet, h]
    · simp [dictSet, h, ih]

/-! ## Python strings and `str.split`

`Str` models a Python `str` as its character sequence.  `pySplit c`
models Python's `s.split(c)` for a single-character separator: it always
returns at least one (possibly empty) piece. -/

abbrev Str := List Char

def pySplit (c : Char) : Str → List Str
  | [] => [[]]
  | x :: xs =>
    if x = c then [] :: pySplit c xs
    else
      match pySplit c xs with
      | [] => [[x]]
      | piece :: rest => (x :: piece) :: rest

theorem pySplit_ne_nil (c : Char) (s : Str) : pySplit c s ≠ [] := by
  cases s with
  | nil => simp [pySplit]
  | cons x xs =>
    simp only [pySplit]
    by_cases h : x = c
    · simp [h]
    · simp only [h, if_false]
      cases pySplit c xs <;> simp

theorem pySplit_append_nosep (c : Char) (s t : Str) (piece : Str) (rest : List Str)
    (hs : c ∉ s) (ht : pySplit c t = piece :: rest) :
    pySplit c (s ++ t) = (s ++ piece) :: rest := by
  induction s with
  | nil => simpa using ht
  | cons x xs ih =>
    have hx : x ≠ c := fun h => hs (h ▸ List.mem_cons_self x xs)
    have hxs : c ∉ xs := fun h => hs (List.mem_cons_of_mem x h)
    simp only [List.cons_append, pySplit, hx, if_false]
    rw [show xs.append t = xs ++ t from rfl, ih hxs]

/-! ## Parser data model (src/pyblitz/generator/parser.py)

`Parser.Method`, `Parser.Endpoint` and the tree-building entry point
`Parser._recordMethod`.  A method's `_responseSchemasByCode` maps a
response code to the recorded (path descriptor, schema name) pairs; a
descriptor step is `('object', key)` or `('array', slice(None))` as the
scanner emits them. -/

inductive SpecKey : Type where
  | strKey (k : Str)
  | sliceAll
deriving DecidableEq, Repr

structure PMethod : Type where
  name : Str
  desc : Str
  responseSchemasByCode : List (Int × List ((List (Str × SpecKey)) × Str)) := []
deriving DecidableEq, Repr

/-- `Parser.Endpoint`: path segment, `_methodsDict` keyed by verb name,
`_childrenDict` keyed by the child's path segment.  The parent
back-pointer of the source is represented by the nesting itself. -/
inductive Endpoint : Type where
  | mk (pathName : Str) (methodsDict : List (Str × PMethod))
      (childrenDict : List (Str × Endpoint))

def Endpoint.pathName : Endpoint → Str
  | .mk p _ _ => p

def Endpoint.methodsDict : Endpoint → List (Str × PMethod)
  | .mk _ m _ => m

def Endpoint.childrenDict : Endpoint → List (Str × Endpoint)
  | .mk _ _ c => c

@[simp] theorem Endpoint.pathName_mk (p : Str) (ms : List (Str × PMethod))
    (ch : List (Str × Endpoint)) : (Endpoint.mk p ms ch).pathName = p := rfl

@[simp] theorem Endpoint.methodsDict_mk (p : Str) (ms : List (Str × PMethod))
    (ch : List (Str × Endpoint)) : (Endpoint.mk p ms ch).methodsDict = ms := rfl

@[simp] theorem Endpoint.childrenDict_mk (p : Str) (ms : List (Str × PMethod))
    (ch : List (Str × Endpoint)) : (Endpoint.mk p ms ch).childrenDict = ch := rfl

/-- `Parser.Endpoint.addMethod`: `self._methodsDict[method.name] = method`.
A plain dict assignment — an already-present verb is replaced. -/
def Endpoint.addMethod (ep : Endpoint) (m : PMethod) : Endpoint :=
  .mk ep.pathName (dictSet m.name m ep.methodsDict) ep.childrenDict

/-- The walk/create loop of `Parser._recordMethod` below the root level:
descend the remaining segments, creating missing children
(`Parser.Endpoint(childName, endpoint)` registers itself in the parent's
`_childrenDict`), and attach the method at the final node. -/
def recordInto (ep : Endpoint) (segs : List Str) (m : PMethod) : Endpoint :=
  match segs with
  | [] => ep.addMethod m
  | s :: rest =>
    let child := match dictGet s ep.childrenDict with
      | some c => c
      | none => .mk s [] []
    .mk ep.pathName ep.methodsDict (dictSet s (recordInto child rest m) ep.childrenDict)

/-- The `pathsSplit.pop(0)` step of `Parser._recordMethod`: the leading
piece is removed when it is empty. -/
def popLeadingEmpty : List Str → List Str
  | [] => []
  | s :: rest => if s = [] then rest else s :: rest

/-- `Parser._recordMethod(pathUrl, method)`: split the url on `/`, drop a
leading empty segment, walk/create endpoints from the root registry and
attach the method to the final node.  When no segment remains, the final
`endpoint.addMethod(method)` is an attribute access on `None`
(AttributeError), modelled as `none`. -/
def recordMethod (roots : List (Str × Endpoint)) (pathUrl : Str) (m : PMethod) :
    Option (List (Str × Endpoint)) :=
  match popLeadingEmpty (pySplit '/' pathUrl) with
  | [] => none
  | s :: rest =>
    let root := match dictGet s roots with
      | some ep => ep
      | none => .mk s [] []
    some (dictSet s (recordInto root rest m) roots)

/-- `Parser.Endpoint.getPath`: a node's full path is its ancestors'
segments concatenated root-to-leaf, each preceded by `/`
(`parentPath + "/" + self._pathName`, the root's parent path being `""`).
Applied to the pathName sequence collected on a walk from the root. -/
def getPathStr (names : List Str) : Str :=
  names.foldl (fun acc s => acc ++ '/' :: s) []

/-- Walk the endpoint tree from a node along child keys, collecting the
`pathName` field of every node visited (the node itself included). -/
def walkNamesFrom (ep : Endpoint) : List Str → Option (List Str)
  | [] => some [ep.pathName]
  | s :: rest =>
    match dictGet s ep.childrenDict with
    | none => none
    | some c => (walkNamesFrom c rest).map (ep.pathName :: ·)

/-- Walk the root registry along the given segments, collecting the
`pathName` of every node on the way to the node they designate. -/
def walkNames (roots : List (Str × Endpoint)) : List Str → Option (List Str)
  | [] => none
  | s :: rest =>
    match dictGet s roots with
    | none => none
    | some ep => walkNamesFrom ep rest

/-- The full path the node reached by walking `urlPath`'s segments
reports: its ancestors' segments concatenated root-to-leaf
(`Parser.Endpoint.getPath`). -/
def reportedPath (roots : List (Str × Endpoint)) (urlPath : Str) : Option Str :=
  (walkNames roots (popLeadingEmpty (pySplit '/' urlPath))).map getPathStr

/-- The methods dict of the node reached by walking the url's segments. -/
def methodsAt (roots : List (Str × Endpoint)) (urlPath : Str) :
    Option (List (Str × PMethod)) :=
  match popLeadingEmpty (pySplit '/' urlPath) with
  | [] => none
  | s :: rest =>
    match dictGet s roots with
    | none => none
    | some ep => methodsFrom ep rest
where
  methodsFrom (ep : Endpoint) : List Str → Option (List (Str × PMethod))
    | [] => some ep.methodsDict
    | s :: rest =>
      match dictGet s ep.childrenDict with
      | none => none
      | some c => methodsFrom c rest

/-! ### Well-formedness: dict keys match node path names

`Parser.Endpoint.addChild` always stores a child under its own
`pathName`, and `_recordMethod` registers roots under their `pathName`,
so every tree the parser builds satisfies this invariant. -/

mutual

def Endpoint.wf : Endpoint → Bool
  | .mk _ _ children => wfChildren children

def wfChildren : List (Str × Endpoint) → Bool
  | [] => true
  | (k, c) :: rest => (decide (c.pathName = k) && c.wf) && wfChildren rest

end

/-- Right-recursive form of `getPathStr`, convenient for induction. -/
def joinSegs : List Str → Str
  | [] => []
  | s :: rest => '/' :: (s ++ joinSegs rest)

theorem getPathStr_eq_joinSegs (segs : List Str) : getPathStr segs = joinSegs segs := by
  suffices h : ∀ (segs : List Str) (acc : Str),
      segs.foldl (fun acc s => acc ++ '/' :: s) acc = acc ++ joinSegs segs by
    simpa [getPathStr] using h segs []
  intro segs
  induction segs with
  | nil => intro acc; simp [joinSegs]
  | cons s rest ih => intro acc; simp [joinSegs, List.foldl_cons, ih]

theorem pySplit_joinSegs (segs : List Str) (hseg : ∀ s ∈ segs, '/' ∉ s) :
    pySplit '/' (joinSegs segs) = [] :: segs := by
  induction segs with
  | nil => simp [joinSegs, pySplit]
  | cons s rest ih =>
    have hs : '/' ∉ s := hseg s (List.mem_cons_self s rest)
    have hrest : ∀ x ∈ rest, '/' ∉ x := fun x hx => hseg x (List.mem_cons_of_mem s hx)
    have h := pySplit_append_nosep '/' s (joinSegs rest) [] rest hs (ih hrest)
    rw [List.append_nil] at h
    show pySplit '/' ('/' :: (s ++ joinSegs rest)) = [] :: s :: rest
    simp [pySplit, h]

theorem popLeadingEmpty_pySplit_joinSegs (segs : List Str)
    (hseg : ∀ s ∈ segs, '/' ∉ s) :
    popLeadingEmpty (pySplit '/' (joinSegs segs)) = segs := by
  rw [pySplit_joinSegs segs hseg]; simp [popLeadingEmpty]

theorem pathName_addMethod (ep : Endpoint) (m : PMethod) :
    (ep.addMethod m).pathName = ep.pathName := rfl

theorem wf_mk (p : Str) (ms : List (Str × PMethod)) (ch : List (Str × Endpoint)) :
    (Endpoint.mk p ms ch).wf = wfChildren ch := rfl

theorem wfChildren_dictGet {d : List (Str × Endpoint)} {s : Str} {c : Endpoint}
    (hwf : wfChildren d = true) (hget : dictGet s d = some c) :
    c.pathName = s ∧ c.wf = true := by
  induction d with
  | nil => simp [dictGet] at hget
  | cons kc rest ih =>
    obtain ⟨k, c'⟩ := kc
    simp only [wfChildren, Bool.and_eq_true, decide_eq_true_eq] at hwf
    simp only [dictGet] at hget
    split at hget
    · rename_i h
      cases hget
      exact ⟨h ▸ hwf.1.1, hwf.1.2⟩
    · exact ih hwf.2 hget

theorem wfChildren_dictSet {d : List (Str × Endpoint)} {k : Str} {c : Endpoint}
    (hwf : wfChildren d = true) (hname : c.pathName = k) (hc : c.wf = true) :
    wfChildren (dictSet k c d) = true := by
  induction d with
  | nil => simp [dictSet, wfChildren, hname, hc]
  | cons kc rest ih =>
    obtain ⟨k', c'⟩ := kc
    simp only [wfChildren, Bool.and_eq_true, decide_eq_true_eq] at hwf
    by_cases h : k' = k
    · simp [dictSet, h, wfChildren, hname, hc, hwf.2]
    · simp [dictSet, h, wfChildren, hwf.1.1, hwf.1.2, ih hwf.2]

/-- The child that `recordInto` descends into: the existing child under
that key, or a fresh endpoint named after the segment. -/
def childFor (ep : Endpoint) (s : Str) : Endpoint :=
  match dictGet s ep.childrenDict with
  | some c => c
  | none => .mk s [] []

theorem recordInto_cons (ep : Endpoint) (s : Str) (rest : List Str) (m : PMethod) :
    recordInto ep (s :: rest) m =
      .mk ep.pathName ep.methodsDict
        (dictSet s (recordInto (childFor ep s) rest m) ep.childrenDict) := by
  simp only [recordInto, childFor]

theorem childFor_pathName_wf {ep : Endpoint} {s : Str} (hwf : ep.wf = true) :
    (childFor ep s).pathName = s ∧ (childFor ep s).wf = true := by
  obtain ⟨p, ms, ch⟩ := ep
  rw [wf_mk] at hwf
  unfold childFor
  cases hget : dictGet s (Endpoint.mk p ms ch).childrenDict with
  | none => exact ⟨rfl, rfl⟩
  | some c => exact wfChildren_dictGet hwf hget

theorem pathName_recordInto (ep : Endpoint) (segs : List Str) (m : PMethod) :
    (recordInto ep segs m).pathName = ep.pathName := by
  cases segs with
  | nil => rfl
  | cons s rest => rw [recordInto_cons]; rfl

theorem wf_recordInto {ep : Endpoint} (segs : List Str) (m : PMethod)
    (hwf : ep.wf = true) : (recordInto ep segs m).wf = true := by
  induction segs generalizing ep with
  | nil =>
    obtain ⟨p, ms, ch⟩ := ep
    simpa [recordInto, Endpoint.addMethod, wf_mk] using hwf
  | cons s rest ih =>
    obtain ⟨hname, hcwf⟩ := childFor_pathName_wf (s := s) hwf
    rw [recordInto_cons, wf_mk]
    refine wfChildren_dictSet ?_ ?_ (ih hcwf)
    · obtain ⟨p, ms, ch⟩ := ep; rw [wf_mk] at hwf; exact hwf
    · rw [pathName_recordInto]; exact hname

theorem walkNamesFrom_recordInto {ep : Endpoint} (segs : List Str) (m : PMethod)
    (hwf : ep.wf = true) :
    walkNamesFrom (recordInto ep segs m) segs = some (ep.pathName :: segs) := by
  induction segs generalizing ep with
  | nil => simp [recordInto, walkNamesFrom, pathName_addMethod]
  | cons s rest ih =>
    obtain ⟨hname, hcwf⟩ := childFor_pathName_wf (s := s) hwf
    rw [recordInto_cons]
    simp only [walkNamesFrom, Endpoint.childrenDict_mk, dictGet_dictSet_self,
      ih hcwf, Option.map_some', Endpoint.pathName_mk, hname]

/-- The methods dict at the node a segment list designates, `[]` when no
such node exists. -/
def leafMethods (ep : Endpoint) : List Str → List (Str × PMethod)
  | [] => ep.methodsDict
  | s :: rest =>
    match dictGet s ep.childrenDict with
    | some c => leafMethods c rest
    | none => []

theorem leafMethods_fresh (s : Str) (rest : List Str) :
    leafMethods (.mk s [] []) rest = [] := by
  cases rest with
  | nil => rfl
  | cons s' r => simp [leafMethods, Endpoint.childrenDict, dictGet]

theorem leafMethods_childFor (ep : Endpoint) (s : Str) (rest : List Str) :
    leafMethods (childFor ep s) rest = leafMethods ep (s :: rest) := by
  obtain ⟨p, ms, ch⟩ := ep
  unfold childFor
  simp only [Endpoint.childrenDict_mk, leafMethods]
  cases hget : dictGet s ch with
  | none => simp [leafMethods_fresh]
  | some c => rfl

theorem leafMethods_recordInto (ep : Endpoint) (segs : List Str) (m : PMethod) :
    leafMethods (recordInto ep segs m) segs =
      dictSet m.name m (leafMethods ep segs) := by
  induction segs generalizing ep with
  | nil => rfl
  | cons s rest ih =>
    rw [recordInto_cons]
    simp only [leafMethods, Endpoint.childrenDict_mk, dictGet_dictSet_self, ih,
      leafMethods_childFor]

theorem methodsFrom_recordInto (ep : Endpoint) (segs : List Str) (m : PMethod) :
    methodsAt.methodsFrom (recordInto ep segs m) segs =
      some (dictSet m.name m (leafMethods ep segs)) := by
  induction segs generalizing ep with
  | nil => rfl
  | cons s rest ih =>
    rw [recordInto_cons]
    simp only [methodsAt.methodsFrom, Endpoint.childrenDict_mk, dictGet_dictSet_self,
      ih, leafMethods_childFor]

/-- C9: for every valid url path (a `/`-prefixed sequence of nonempty,
slash-free segments, here given by its segment list), `record(urlPath,
method)` on a well-formed root registry succeeds, and the node reached by
walking those segments reports a full path — the root-to-leaf
concatenation of its ancestors' segments, `Parser.Endpoint.getPath` —
equal to the exact original urlPath. -/
theorem recordMethod_reportedPath (segs : List Str) (hne : segs ≠ [])
    (hseg : ∀ s ∈ segs, s ≠ [] ∧ '/' ∉ s) (roots : List (Str × Endpoint))
    (hwf : wfChildren roots = true) (m : PMethod) :
    ∃ roots', recordMethod roots (getPathStr segs) m = some roots' ∧
      reportedPath roots' (getPathStr segs) = some (getPathStr segs) := by
  have hsplit : popLeadingEmpty (pySplit '/' (getPathStr segs)) = segs := by
    rw [getPathStr_eq_joinSegs]
    exact popLeadingEmpty_pySplit_joinSegs segs (fun s hs => (hseg s hs).2)
  obtain ⟨s, rest, rfl⟩ : ∃ a b, segs = a :: b := by
    cases segs with
    | nil => exact absurd rfl hne
    | cons a b => exact ⟨a, b, rfl⟩
  have key : ∀ root : Endpoint, root.pathName = s → root.wf = true →
      reportedPath (dictSet s (recordInto root rest m) roots)
        (getPathStr (s :: rest)) = some (getPathStr (s :: rest)) := by
    intro root hname hrwf
    unfold reportedPath
    rw [hsplit]
    simp only [walkNames, dictGet_dictSet_self]
    rw [walkNamesFrom_recordInto rest m hrwf]
    simp [hname]
  cases hget : dictGet s roots with
  | none =>
    refine ⟨_, ?_, key (Endpoint.mk s [] []) rfl rfl⟩
    simp only [recordMethod]
    rw [hsplit]
    simp [hget]
  | some ep =>
    obtain ⟨hname, hepwf⟩ := wfChildren_dictGet hwf hget
    refine ⟨_, ?_, key ep hname hepwf⟩
    simp only [recordMethod]
    rw [hsplit]
    simp [hget]

/-- C1, amended: recording the same (path, verb) pair twice into an empty
registry raises no duplicate-method error — both calls succeed — and
leaves the node with a single entry for that verb holding the second
method: `Parser.Endpoint.addMethod` is a plain dict assignment, so the
second registration silently replaces the first (last write wins). -/
theorem recordMethod_duplicate_verb_replaces (url s : Str) (rest : List Str)
    (hsplit : popLeadingEmpty (pySplit '/' url) = s :: rest)
    (m₁ m₂ : PMethod) (hname : m₂.name = m₁.name) :
    ∃ t₁ t₂, recordMethod [] url m₁ = some t₁ ∧ recordMethod t₁ url m₂ = some t₂ ∧
      methodsAt t₂ url = some [(m₁.name, m₂)] := by
  have h1 : recordMethod [] url m₁ =
      some [(s, recordInto (Endpoint.mk s [] []) rest m₁)] := by
    simp only [recordMethod]
    rw [hsplit]
    simp [dictGet, dictSet]
  have h2 : recordMethod [(s, recordInto (Endpoint.mk s [] []) rest m₁)] url m₂ =
      some [(s, recordInto (recordInto (Endpoint.mk s [] []) rest m₁) rest m₂)] := by
    simp only [recordMethod]
    rw [hsplit]
    simp [dictGet, dictSet]
  refine ⟨_, _, h1, h2, ?_⟩
  unfold methodsAt
  rw [hsplit]
  simp only [dictGet, if_pos]
  rw [methodsFrom_recordInto, leafMethods_recordInto, leafMethods_fresh]
  simp [dictSet, hname]

/-! ## Python exceptions

The exception kinds the embedded code can raise. -/

inductive PyErr : Type where
  | keyError (k : String)
  | indexError (msg : String)
  | typeError (msg : String)
  | valueError (msg : String)
  | attributeError (msg : String)
  | assertionError (msg : String)
deriving DecidableEq, Repr

instance {ε α : Type} [DecidableEq ε] [DecidableEq α] : DecidableEq (Except ε α) :=
  fun x y =>
    match x, y with
    | .ok a, .ok b =>
      if h : a = b then isTrue (by rw [h]) else isFalse (fun he => h (Except.ok.inj he))
    | .error e, .error f =>
      if h : e = f then isTrue (by rw [h]) else isFalse (fun he => h (Except.error.inj he))
    | .ok _, .error _ => isFalse (fun he => Except.noConfusion he)
    | .error _, .ok _ => isFalse (fun he => Except.noConfusion he)

/-! ## Generator endpoint classification (src/pyblitz/generator/generate.py)

`_EndpointWriter._isVariableEndpoint`, `_isExpressionEndpoint` and the
assertion prelude of `_genExpressionEndpointAndChildren`. -/

/-- `_isVariableEndpoint`: `(pathName[0], pathName[-1]) == ("{", "}")`.
Python would raise IndexError on an empty segment name; that case is
`none`. -/
def isVariableEndpoint (ep : Endpoint) : Option Bool :=
  match ep.pathName.head?, ep.pathName.getLast? with
  | some a, some b => some (a = '{' && b = '}')
  | _, _ => none

/-- `_isExpressionEndpoint`: scan the children in declaration order and
return true at the first variable child, false when none is. -/
def isExpressionEndpoint (ep : Endpoint) : Option Bool :=
  anyVariableChild ep.childrenDict
where
  anyVariableChild : List (Str × Endpoint) → Option Bool
    | [] => some false
    | (_, c) :: rest =>
      match isVariableEndpoint c with
      | none => none
      | some true => some true
      | some false => anyVariableChild rest

/-- The `[child for child in children if isVariable(child)]` comprehension
of `_genExpressionEndpointAndChildren`. -/
def collectVariableChildren : List (Str × Endpoint) → Option (List Endpoint)
  | [] => some []
  | (_, c) :: rest =>
    match isVariableEndpoint c with
    | none => none
    | some b => (collectVariableChildren rest).map (fun l => if b then c :: l else l)

/-- The assertion prelude of `_genExpressionEndpointAndChildren`
(generate.py lines 263-275): `assert len(varEndpointChildren) == 1` (a
bare assert, no message), then `assert not
self._isExpressionEndpoint(varEndpointChild)` with its message.  `.ok ()`
means generation proceeds past the assertions. -/
def genExpressionAssertions (ep : Endpoint) : Except PyErr Unit :=
  match collectVariableChildren ep.childrenDict with
  | none => .error (.indexError "string index out of range")
  | some varChildren =>
    match varChildren with
    | [varChild] =>
      match isExpressionEndpoint varChild with
      | none => .error (.indexError "string index out of range")
      | some true => .error (.assertionError
          "expression endpoints cannot currently handle expression endpoint children")
      | some false => .ok ()
    | _ => .error (.assertionError "")

/-- The endpoint node of claim C5: segment "users" with children "{id}"
and "active". -/
def usersIdActive : Endpoint :=
  .mk (String.toList "users") []
    [(String.toList "{id}", .mk (String.toList "{id}") [] []),
     (String.toList "active", .mk (String.toList "active") [] [])]

/-- A node "users" with the two variable children "{id}" and "{name}". -/
def usersIdName : Endpoint :=
  .mk (String.toList "users") []
    [(String.toList "{id}", .mk (String.toList "{id}") [] []),
     (String.toList "{name}", .mk (String.toList "{name}") [] [])]

/-- C5, counterexample: on the node "users" with children "{id}" and
"active", `_genEndpointAndChildren` takes the expression path (the node
is classified Expression) and the expression assertions pass — exactly
one of the two children is variable — so generation proceeds rather than
failing as the claim states. -/
theorem genExpressionAssertions_usersIdActive_passes :
    isExpressionEndpoint usersIdActive = some true ∧
    genExpressionAssertions usersIdActive = .ok () := by
  decide

/-- C5, amended: the node "users" with children "{id}" and "active" is
classified Expression and passes both expression assertions (generation
proceeds, emitting "active" as an ordinary child class); the
expression-assertion failure triggers instead when more than one child is
variable, e.g. children "{id}" and "{name}". -/
theorem genExpressionAssertions_classification :
    genExpressionAssertions usersIdActive = .ok () ∧
    genExpressionAssertions usersIdName = .error (.assertionError "") ∧
    isExpressionEndpoint usersIdName = some true := by
  decide

/-- Witness for C9 at the concrete path "/users/{id}" recorded into an
empty registry. -/
theorem recordMethod_reportedPath_witness :
    ∃ roots',
      recordMethod [] (getPathStr [String.toList "users", String.toList "{id}"])
        ⟨String.toList "get", [], []⟩ = some roots' ∧
      reportedPath roots' (getPathStr [String.toList "users", String.toList "{id}"]) =
        some (getPathStr [String.toList "users", String.toList "{id}"]) :=
  recordMethod_reportedPath [String.toList "users", String.toList "{id}"]
    (by decide) (by decide) [] rfl ⟨String.toList "get", [], []⟩

/-- C1, counterexample: registering verb "get" on path "/users" twice does
not raise the duplicate-method error the claim requires — both
`_recordMethod` calls succeed (both return a registry rather than
failing), and the node ends up holding the second method in place of the
first. -/
theorem recordMethod_duplicate_verb_counterexample :
    ((recordMethod [] (String.toList "/users")
        ⟨String.toList "get", String.toList "first", []⟩).bind
      (fun t => recordMethod t (String.toList "/users")
        ⟨String.toList "get", String.toList "second", []⟩)).bind
      (fun t => methodsAt t (String.toList "/users")) =
    some [(String.toList "get",
      ⟨String.toList "get", String.toList "second", []⟩)] := by
  decide

/-- Witness for C1's amended theorem at path "/users", verb "get". -/
theorem recordMethod_duplicate_verb_replaces_witness :
    ∃ t₁ t₂,
      recordMethod [] (String.toList "/users")
        ⟨String.toList "get", String.toList "first", []⟩ = some t₁ ∧
      recordMethod t₁ (String.toList "/users")
        ⟨String.toList "get", String.toList "second", []⟩ = some t₂ ∧
      methodsAt t₂ (String.toList "/users") =
        some [(String.toList "get",
          ⟨String.toList "get", String.toList "second", []⟩)] :=
  recordMethod_duplicate_verb_replaces (String.toList "/users")
    (String.toList "users") [] (by decide) _ _ rfl

/-! ## Server registration

`Parser.Server.__init__` (parser.py 105-108) and `registerServer`
(http/network.py 15-19). -/

structure Server : Type where
  name : Str
  url : Str
  desc : Str
deriving DecidableEq, Repr

/-- `Parser.Server.__init__`: `self._url = url if url[-1] != "/" else
url[:-1]`.  `url[-1]` on an empty string raises IndexError. -/
def Server.init (name url desc : Str) : Except PyErr Server :=
  match url.getLast? with
  | none => .error (.indexError "string index out of range")
  | some c => .ok ⟨name, if c ≠ '/' then url else url.dropLast, desc⟩

/-- `registerServer(name, url, desc="")` of http/network.py: `if url[-1]
== "/": url.pop()` — `url` is a `str`, which has no `pop` method, so the
call raises AttributeError whenever the url ends with a slash; otherwise
the url is stored unchanged in the module server dict. -/
def registerServer (servers : List (Str × Str)) (name url _desc : Str) :
    Except PyErr (List (Str × Str)) :=
  match url.getLast? with
  | none => .error (.indexError "string index out of range")
  | some c =>
    if c = '/' then .error (.attributeError "str object has no attribute pop")
    else .ok (dictSet name url servers)

/-- C8: the parser-side registration strips the trailing slash as the
claim states, but `registerServer` — the other registration path the
claim covers — crashes with AttributeError on any url ending in "/"
(`url.pop()` on a `str`), storing nothing; a url without a trailing slash
is stored unchanged by both. -/
theorem registerServer_trailing_slash_bug :
    registerServer [] (String.toList "prod") (String.toList "https://api.x/")
        (String.toList "") =
      .error (.attributeError "str object has no attribute pop") ∧
    Server.init (String.toList "prod") (String.toList "https://api.x/")
        (String.toList "") =
      .ok ⟨String.toList "prod", String.toList "https://api.x", String.toList ""⟩ ∧
    registerServer [] (String.toList "prod") (String.toList "https://api.x")
        (String.toList "") =
      .ok [(String.toList "prod", String.toList "https://api.x")] := by
  decide

/-! ## Specification JSON and the reference resolver
(src/pyblitz/generator/parser.py, `Parser_3_1_0`)

`_evalRefObj` and `_evalRefsAndGetValue` recurse through the spec
document; a cyclic chain of `$ref`s would not terminate in Python, so the
embedding takes a fuel parameter (`none` on exhaustion). -/

inductive Json : Type where
  | null
  | bool (b : Bool)
  | num (n : Int)
  | str (s : String)
  | arr (elems : List Json)
  | obj (fields : List (String × Json))

/-- Python's `type(refObj) is dict and '$ref' in refObj`. -/
def isRefObj : Json → Bool
  | .obj fields => (dictGet "$ref" fields).isSome
  | _ => false

/-- Python `currSpecObject[key]` for a string key: dict lookup (KeyError
when absent, `none`); any other container raises TypeError (`none`). -/
def jsonIndex (j : Json) (k : String) : Option Json :=
  match j with
  | .obj fields => dictGet k fields
  | _ => none

def pySplitString (c : Char) (s : String) : List String :=
  (pySplit c s.toList).map (fun l => String.mk l)

/-- The three mutually recursive pieces of the resolver, tagged so the
recursion is structural on the fuel:
`getValue cur keyPath` is `_evalRefsAndGetValue(cur, keyPath)`;
`deref cur` is its inner while loop (deref until the object stops being a
reference — the source compares object identity, equivalent here because
`_evalRefObj` returns its argument unchanged exactly on non-references);
`refObj v` is `_evalRefObj(v)`. -/
inductive RefTask : Type where
  | getValue (cur : Json) (keyPath : List String)
  | deref (cur : Json)
  | refObj (v : Json)

def resolveCore (fuel : Nat) (spec : Json) : RefTask → Option Json :=
  match fuel with
  | 0 => fun _ => none
  | fuel + 1 => fun task =>
    match task with
    | .getValue cur [] => some cur
    | .getValue cur (k :: rest) =>
      let derefed := match cur with
        | .obj _ => resolveCore fuel spec (.deref cur)
        | _ => some cur
      match derefed with
      | none => none
      | some cur' =>
        match jsonIndex cur' k with
        | none => none
        | some next => resolveCore fuel spec (.getValue next rest)
    | .deref cur =>
      if isRefObj cur then
        match resolveCore fuel spec (.refObj cur) with
        | none => none
        | some next => resolveCore fuel spec (.deref next)
      else some cur
    | .refObj v =>
      match v with
      | .obj fields =>
        match dictGet "$ref" fields with
        | some (.str refPath) =>
          match pySplitString '/' refPath with
          | k₀ :: restKeys =>
            if k₀ = "#" then resolveCore fuel spec (.getValue spec restKeys)
            else none
          | [] => none
        | some _ => none
        | none => some v
      | _ => some v

/-- `Parser_3_1_0._evalRefsAndGetValue(currSpecObject, specKeyPath)`. -/
def evalRefsAndGetValue (fuel : Nat) (spec cur : Json) (keyPath : List String) :
    Option Json :=
  resolveCore fuel spec (.getValue cur keyPath)

/-- `Parser_3_1_0._evalRefObj(refObj)`: the `resolve(value)` operation of
the claim. -/
def evalRefObj (fuel : Nat) (spec v : Json) : Option Json :=
  resolveCore fuel spec (.refObj v)

/-- A spec document whose entry "a" is itself a reference to "b". -/
def chainSpec : Json :=
  .obj [("a", .obj [("$ref", .str "#/b")]), ("b", .num 42)]

/-- C4, counterexample: resolving `{"$ref": "#/a"}` against a document
where "a" holds `{"$ref": "#/b"}` and "b" holds 42 returns the
intermediate reference object `{"$ref": "#/b"}` — still a reference
object, not the terminal non-reference value 42 the claim requires: the
final hop of the walk is never re-resolved. -/
theorem evalRefObj_chained_terminal_counterexample :
    evalRefObj 9 chainSpec (.obj [("$ref", .str "#/a")]) =
      some (Json.obj [("$ref", Json.str "#/b")]) ∧
    isRefObj (Json.obj [("$ref", Json.str "#/b")]) = true := by
  exact ⟨rfl, rfl⟩

/-- C4, amended: `resolve(v)` returns `v` itself whenever `v` is not a
reference object; when `v` is a reference object it returns the value at
the referenced path, resolving references encountered at intermediate
hops of the path, but the terminal value is returned without further
resolution — a chained reference sitting at the target is returned as a
reference object (as the counterexample shows), while a chain at an
intermediate hop is followed. -/
theorem evalRefObj_nonref_id (fuel : Nat) (spec v : Json)
    (h : isRefObj v = false) : evalRefObj (fuel + 1) spec v = some v := by
  cases v with
  | obj fields =>
    have h' : dictGet "$ref" fields = none := by
      cases hget : dictGet "$ref" fields with
      | none => rfl
      | some v => rw [isRefObj, hget] at h; simp at h
    simp [evalRefObj, resolveCore, h']
  | null => rfl
  | bool b => rfl
  | num n => rfl
  | str s => rfl
  | arr elems => rfl

/-- Witness for C4's amended theorem: a non-reference object resolves to
itself. -/
theorem evalRefObj_nonref_id_witness :
    evalRefObj 4 chainSpec (.obj [("b", .num 7)]) = some (.obj [("b", .num 7)]) :=
  evalRefObj_nonref_id 3 chainSpec (.obj [("b", .num 7)]) rfl

/-! ## Runtime response transformation (src/pyblitz/http/responses.py)

`Response._transformSchema` and `Response._deserializeSchema` mutate the
parsed response JSON in place; since `json.loads` output is a tree (no
aliasing), the in-place walk is modelled by rebuilding the updated value
along the descent.  A runtime JSON value can additionally hold a
deserialized schema instance, and — inside an error marker — a stored
exception object. -/

inductive JsonR : Type where
  | null
  | bool (b : Bool)
  | num (n : Int)
  | str (s : String)
  | arr (elems : List JsonR)
  | obj (fields : List (String × JsonR))
  | schemaInst (className : String) (payload : JsonR)
  | exc (e : PyErr)

/-- A key descriptor's key: an object field name, an array index, or a
Python slice (start, stop, step). -/
inductive PyKey : Type where
  | str (s : String)
  | int (n : Int)
  | slice (start stop step : Option Int)
deriving DecidableEq, Repr

/-- Python `range(start, stop, step)` as the list it enumerates. -/
def pyRangeList (start stop step : Int) : Except PyErr (List Int) :=
  if step = 0 then .error (.valueError "range() arg 3 must not be zero")
  else
    let count : Nat :=
      if step > 0 then ((stop - start + step - 1) / step).toNat
      else ((start - stop - step - 1) / (-step)).toNat
    .ok ((List.range count).map (fun i => start + step * i))

/-- The element positions a Python slice selects on a sequence of the
given length (`PySlice_AdjustIndices` semantics). -/
def sliceIdxs (len : Nat) (start stop step : Option Int) : Except PyErr (List Nat) :=
  let st := step.getD 1
  if st = 0 then .error (.valueError "slice step cannot be zero")
  else
    let L : Int := len
    let lo :=
      if st > 0 then
        match start with
        | none => 0
        | some i => if i < 0 then max (L + i) 0 else min i L
      else
        match start with
        | none => L - 1
        | some i => if i < 0 then max (L + i) (-1) else min i (L - 1)
    let hi :=
      if st > 0 then
        match stop with
        | none => L
        | some i => if i < 0 then max (L + i) 0 else min i L
      else
        match stop with
        | none => -1
        | some i => if i < 0 then max (L + i) (-1) else min i (L - 1)
    (pyRangeList lo hi st).map (fun l => l.map Int.toNat)

def pyLen : JsonR → Except PyErr Int
  | .arr xs => .ok xs.length
  | .obj fields => .ok fields.length
  | .str s => .ok s.length
  | _ => .error (.typeError "object has no len()")

/-- Python `item[key]`.  Dict lookup raises KeyError when the key is
absent (JSON object keys are strings, so an integer key is always
absent); list indexing supports negative indices and raises IndexError
out of range; list and string slicing build a new sequence; everything
else raises TypeError. -/
def pyGetItem (item : JsonR) (k : PyKey) : Except PyErr JsonR :=
  match item, k with
  | .obj fields, .str s =>
    match dictGet s fields with
    | some v => .ok v
    | none => .error (.keyError s)
  | .obj _, .int n => .error (.keyError (toString n))
  | .obj _, .slice _ _ _ => .error (.typeError "unhashable type: slice")
  | .arr xs, .int n =>
    let i := if n < 0 then n + xs.length else n
    if 0 ≤ i ∧ i < xs.length then .ok ((xs.get? i.toNat).getD .null)
    else .error (.indexError "list index out of range")
  | .arr xs, .slice st sp ste =>
    (sliceIdxs xs.length st sp ste).map
      (fun idxs => .arr (idxs.map (fun i => (xs.get? i).getD .null)))
  | .arr _, .str _ => .error (.typeError "list indices must be integers or slices")
  | .str s, .int n =>
    let cs := s.toList
    let i := if n < 0 then n + cs.length else n
    if 0 ≤ i ∧ i < cs.length then .ok (.str (String.mk [(cs.get? i.toNat).getD ' ']))
    else .error (.indexError "string index out of range")
  | .str s, .slice st sp ste =>
    (sliceIdxs s.length st sp ste).map
      (fun idxs => .str (String.mk (idxs.map (fun i => (s.toList.get? i).getD ' '))))
  | .str _, .str _ => .error (.typeError "string indices must be integers")
  | _, _ => .error (.typeError "object is not subscriptable")

/-- Python `item[key] = v` for the combinations `_deserializeSchema` and
`_transformSchema` can reach: field assignment on a dict, element
assignment on a list.  The remaining combinations either fail first at
the paired read (so the assignment is unreachable) or are item
assignments Python itself rejects (str), all modelled as TypeError. -/
def pySetItem (item : JsonR) (k : PyKey) (v : JsonR) : Except PyErr JsonR :=
  match item, k with
  | .obj fields, .str s => .ok (.obj (dictSet s v fields))
  | .arr xs, .int n =>
    let i := if n < 0 then n + xs.length else n
    if 0 ≤ i ∧ i < xs.length then .ok (.arr (xs.set i.toNat v))
    else .error (.indexError "list assignment index out of range")
  | _, _ => .error (.typeError "object does not support item assignment")

/-- `Response._deserializeSchema(jsonItem, keyToSchema, schemaClass)`,
with the schema class's `fromSerialized` passed in as `f`:

```
try:
    jsonItem[keyToSchema] = schemaClass.fromSerialized(jsonItem[keyToSchema])
except KeyError as err:
    jsonItem[keyToSchema]['__schema_deserialization_failed'] = {'cause': err}
```

Only KeyError is caught; the handler re-indexes `jsonItem[keyToSchema]`,
so when the key was absent the same KeyError is raised again out of the
handler. -/
def deserializeSchema (f : JsonR → Except PyErr JsonR) (jsonItem : JsonR)
    (key : PyKey) : Except PyErr JsonR :=
  let attempt : Except PyErr JsonR := do
    let v ← pyGetItem jsonItem key
    let inst ← f v
    pySetItem jsonItem key inst
  match attempt with
  | .ok r => .ok r
  | .error e =>
    match e with
    | .keyError _ => do
      let v ← pyGetItem jsonItem key
      let v' ← pySetItem v (.str "__schema_deserialization_failed")
        (.obj [("cause", .exc e)])
      pySetItem jsonItem key v'
    | _ => .error e

/-- Write the transformed selection back at the selected positions (the
Python slice copy shares its elements with the original list, so
mutating them mutates the original at those positions). -/
def scatter (xs : List JsonR) : List Nat → List JsonR → List JsonR
  | [], _ => xs
  | _, [] => xs
  | i :: is, v :: vs => scatter (xs.set i v) is vs

/-- The handling of the final key descriptor in
`Response._transformSchema` (responses.py 75-90): an 'object' step or an
int 'array' step deserializes at that key; a slice 'array' step loops
`range(sliceStart, sliceEnd, sliceStep)` (defaults 0, `len`, 1 — no
clamping, out-of-range indices raise IndexError inside the loop) and
deserializes each index in turn; any other key type on 'array' raises
TypeError, an unknown step type raises ValueError.  (In Python that last
`raise` interpolates the loop variable `itemType`, which is unbound when
the path has length one — a NameError; the error branch is modelled
uniformly as the intended ValueError.) -/
def transformLast (f : JsonR → Except PyErr JsonR) (last : String × PyKey)
    (item : JsonR) : Except PyErr JsonR :=
  if last.1 = "object" then deserializeSchema f item last.2
  else if last.1 = "array" then
    match last.2 with
    | .int n => deserializeSchema f item (.int n)
    | .slice st sp ste => do
      let len ← pyLen item
      let a := st.getD 0
      let b := sp.getD len
      let c := ste.getD 1
      let idxs ← pyRangeList a b c
      idxs.foldlM (fun it i => deserializeSchema f it (.int i)) item
    | .str _ => .error (.typeError "An array cannot be accessed by a key of type str")
  else .error (.valueError ("Unknown path list item type: " ++ last.1))

/-- `Response._transformSchema(pathKeyDescriptors, schemaClass,
startJsonItem)`, with the schema class's deserialization as `f`; returns
the updated item.  The loop over `pathKeyDescriptors[:-1]` descends
'object' steps; an 'array' step takes `currJsonItem[itemKey]` and
recursively applies the *remaining* path to every element of it
independently (the fan-out), then returns; the final descriptor is
handled by `transformLast`.  An empty path indexes
`pathKeyDescriptors[-1]` out of range. -/
def transformSchema (f : JsonR → Except PyErr JsonR) :
    List (String × PyKey) → JsonR → Except PyErr JsonR
  | [], _ => .error (.indexError "list index out of range")
  | [last], item => transformLast f last item
  | (itemType, itemKey) :: rest, item =>
    if itemType = "object" then do
      let sub ← pyGetItem item itemKey
      let sub' ← transformSchema f rest sub
      pySetItem item itemKey sub'
    else if itemType = "array" then
      match item, itemKey with
      | .arr xs, .slice st sp ste => do
        let idxs ← sliceIdxs xs.length st sp ste
        let sel := idxs.map (fun i => (xs.get? i).getD .null)
        let sel' ← sel.mapM (transformSchema f rest)
        .ok (.arr (scatter xs idxs sel'))
      | _, _ => do
        let sub ← pyGetItem item itemKey
        match sub with
        | .arr ys => do
          let ys' ← ys.mapM (transformSchema f rest)
          pySetItem item itemKey (.arr ys')
        | .str s => do
          -- iterating a Python str yields fresh one-character strings;
          -- the recursive calls can raise but cannot mutate the original
          let _ ← (s.toList).mapM
            (fun ch => transformSchema f rest (.str (String.mk [ch])))
          pure item
        | .obj fields => do
          -- iterating a Python dict yields its keys, which are strings
          let _ ← fields.mapM (fun kv => transformSchema f rest (.str kv.1))
          pure item
        | _ => .error (.typeError "object is not iterable")
    else .error (.valueError ("Unknown path list item type: " ++ itemType))

/-- A well-behaved schema deserializer: wraps the raw value in a typed
schema instance (the role `schemaClass.fromSerialized` plays for
`_transformSchema`). -/
def mkSchemaInst (className : String) : JsonR → Except PyErr JsonR :=
  fun v => .ok (.schemaInst className v)

/-- C7: replaying `[("object","items"), ("array", all), ("object","sku")]`
against `{"items": [{"sku":"a"},{"sku":"b"}]}` replaces the "sku" value
of every element independently with a schema instance, and the "items"
array keeps its length and element order. -/
theorem transformSchema_wildcard_fanout :
    transformSchema (mkSchemaInst "Sku")
      [("object", .str "items"), ("array", .slice none none none),
       ("object", .str "sku")]
      (.obj [("items", .arr [.obj [("sku", .str "a")], .obj [("sku", .str "b")]])]) =
    .ok (.obj [("items", .arr
      [.obj [("sku", .schemaInst "Sku" (.str "a"))],
       .obj [("sku", .schemaInst "Sku" (.str "b"))]])]) := by
  rfl

/-- C3: when the expected key is absent at the location a recorded path
descriptor names, the failure does not stay local: the KeyError caught by
`_deserializeSchema` is raised again by the marker-attachment line itself
(it re-indexes the absent key), so the exception propagates out of the
transformation, no marker is attached, and — second conjunct — the
sibling array element after the failing one is never processed. -/
theorem transformSchema_missing_key_propagates :
    transformSchema (mkSchemaInst "Sku") [("object", .str "user")] (.obj []) =
      .error (.keyError "user") ∧
    transformSchema (mkSchemaInst "Sku")
      [("object", .str "items"), ("array", .slice none none none),
       ("object", .str "sku")]
      (.obj [("items", .arr [.obj [], .obj [("sku", .str "a")]])]) =
      .error (.keyError "sku") := by
  exact ⟨rfl, rfl⟩

/-! ## Generated schema deserialization (generate.py `_useSchemaTemplate`
and common/__init__.py `Schema.fromSerialized`)

The generated `_loadJsonDict(self, jsonDict, looseChecking)` takes two
positional arguments after `self`; Python checks the arity at call time,
so the callable is modelled on an explicit argument list. -/

inductive PyArg : Type where
  | json (j : JsonR)
  | flag (b : Bool)

/-- The generated `_loadJsonDict` (generate.py 156-161): for each incoming
(propName, propVal), assign it when propName is a declared property, else
`raise KeyError(f"Unknown property '{propName}' found when loading
Schema")` unless looseChecking.  Returns the assignments made.  A call
with any other argument shape raises TypeError, as the interpreter does
for a wrong arity. -/
def generatedLoadJsonDict (propNames : List String) (args : List PyArg) :
    Except PyErr (List (String × JsonR)) :=
  match args with
  | [PyArg.json jsonDict, PyArg.flag looseChecking] =>
    match jsonDict with
    | .obj fields =>
      fields.foldlM
        (fun acc kv =>
          if propNames.contains kv.1 then .ok (dictSet kv.1 kv.2 acc)
          else if !looseChecking then
            .error (.keyError
              ("Unknown property '" ++ kv.1 ++ "' found when loading Schema"))
          else .ok acc)
        []
    | _ => .error (.attributeError "object has no attribute items")
  | _ =>
    .error (.typeError
      "_loadJsonDict() missing 1 required positional argument: looseChecking")

/-- `Schema.fromSerialized(cls, jsonDict)` (common/__init__.py 84-88):
`self = cls(); self._loadJsonDict(jsonDict); return self` — the call
passes `jsonDict` as the only argument. -/
def fromSerialized (propNames : List String) (jsonDict : JsonR) :
    Except PyErr (List (String × JsonR)) :=
  generatedLoadJsonDict propNames [.json jsonDict]

/-- C6: for a generated schema, the public `fromSerialized` entry point
calls `_loadJsonDict(jsonDict)` while the generated method requires the
extra `looseChecking` argument, so every call raises TypeError — the
input is never inspected and no caller can request the loose mode.  The
remaining conjuncts evaluate the generated body as it would behave if it
were called with both arguments: unknown fields rejected by name when
strict, accepted when loose, known fields loaded. -/
theorem fromSerialized_arity_bug :
    fromSerialized ["a"] (.obj [("a", .num 1)]) =
      .error (.typeError
        "_loadJsonDict() missing 1 required positional argument: looseChecking") ∧
    generatedLoadJsonDict ["a"] [.json (.obj [("b", .num 2)]), .flag false] =
      .error (.keyError "Unknown property 'b' found when loading Schema") ∧
    generatedLoadJsonDict ["a"] [.json (.obj [("b", .num 2)]), .flag true] =
      .ok [] ∧
    generatedLoadJsonDict ["a"] [.json (.obj [("a", .num 1)]), .flag false] =
      .ok [("a", .num 1)] := by
  exact ⟨rfl, rfl, rfl, rfl⟩

/-! ## Schema instance equality (src/pyblitz/common/__init__.py, `Schema`)

An instance of a generated schema type: its concrete type, its property
dict (each value either set or the NoProp sentinel), and its
serialization filter (`serialFilter` stores the allow-list). -/

inductive PropVal : Type where
  | noProp
  | val (v : JsonR)

structure SchemaInst : Type where
  ty : String
  props : List (String × PropVal)
  filter : List String

/-- The generated `_serialize`: the property dict restricted to values
that are not the NoProp sentinel. -/
def serializeRaw (inst : SchemaInst) : List (String × JsonR) :=
  inst.props.filterMap
    (fun kv => match kv.2 with
      | .noProp => none
      | .val j => some (kv.1, j))

/-- `Schema.serialize(ignoreFilter=False)`: `shouldFilter = not
ignoreFilter and len(self._filter) > 0`; when filtering, keep only the
keys in the allow-list. -/
def serialize (inst : SchemaInst) (ignoreFilter : Bool) : List (String × JsonR) :=
  let serialDict := serializeRaw inst
  let shouldFilter := !ignoreFilter && !inst.filter.isEmpty
  if shouldFilter then serialDict.filter (fun kv => inst.filter.contains kv.1)
  else serialDict

/-- Python `dict ==`: extensional equality of lookups (key sets and
values agree). -/
def pyDictEq (d₁ d₂ : List (String × JsonR)) : Prop :=
  ∀ k, dictGet k d₁ = dictGet k d₂

/-- `Schema.__eq__`: `type(self) is type(other) and
self.serialize(ignoreFilter=True) == other.serialize(ignoreFilter=True)`. -/
def schemaEq (a b : SchemaInst) : Prop :=
  a.ty = b.ty ∧ pyDictEq (serialize a true) (serialize b true)

/-- `Schema.serialFilter(*paramsToUse)`: stores the allow-list. -/
def serialFilter (inst : SchemaInst) (paramsToUse : List String) : SchemaInst :=
  { inst with filter := paramsToUse }

/-- C10: two Schema instances compare equal exactly when they have the
same concrete type and their serializations computed with the field
filter ignored are equal; consequently two instances that differ only in
their `serialFilter` setting always compare equal.  The last conjunct
shows the filter is not vacuous: it does restrict `serialize` when the
filter is not ignored. -/
theorem schemaEq_ignores_serialFilter :
    (∀ a b : SchemaInst,
      schemaEq a b ↔ a.ty = b.ty ∧ pyDictEq (serialize a true) (serialize b true)) ∧
    (∀ (inst : SchemaInst) (f₁ f₂ : List String),
      schemaEq (serialFilter inst f₁) (serialFilter inst f₂)) ∧
    serialize ⟨"S", [("a", .val (.num 1)), ("b", .val (.num 2))], ["a"]⟩ false =
      [("a", .num 1)] := by
  refine ⟨fun a b => Iff.rfl, fun inst f₁ f₂ => ⟨rfl, fun k => rfl⟩, rfl⟩

/-! ## Schema code generation (src/pyblitz/generator/generate.py,
`_EndpointWriter._genSchemaModel` and `_useSchemaTemplate`)

`propDefNames` is a Python *set* of the property names; the emitted line
`_propNames = {propDefNames}` interpolates the set's repr, whose element
order depends on the interpreter's string-hash seed, not on the parse
result.  The embedding therefore takes that iteration order as an extra
parameter. -/

structure PSchemaProperty : Type where
  name : String
  desc : String
deriving DecidableEq, Repr

/-- `Parser.Schema`: name, description, and the property dict keyed by
property name in first-seen order. -/
structure PSchema : Type where
  name : String
  desc : String
  properties : List (String × PSchemaProperty)
deriving DecidableEq, Repr

/-- `Parser.Schema.props`: the property dict's values. -/
def PSchema.props (m : PSchema) : List PSchemaProperty :=
  m.properties.map (fun kv => kv.2)

/-- The element list of the Python set `{prop.name for prop in
model.props}` (property names are dict keys, hence already distinct). -/
def schemaPropNames (m : PSchema) : List String :=
  m.props.map (fun p => p.name)

/-- `_EndpointWriter._indent`: `code.replace("\n", "\n" + "    " *
indentLevel)`. -/
def pyIndent (code : String) (indentLevel : Nat) : String :=
  code.replace "\n" ("\n" ++ String.join (List.replicate indentLevel "    "))

/-- Python `repr`/`str` of a set of strings in a given iteration order
(`set()` when empty). -/
def reprPySet (names : List String) : String :=
  match names with
  | [] => "set()"
  | _ =>
    "\x7b" ++ String.intercalate ", " (names.map (fun n => "'" ++ n ++ "'")) ++ "\x7d"

def genMethodSep : String := "\n\n"

/-- `_useSchemaTemplate`, the f-string of generate.py 137-162 (with `{{`
and `}}` denoting literal braces). -/
def useSchemaTemplate (schemaName schemaDesc propDefNames methodSep propDefsParams
    propDefsAssignments : String) : String :=
  "class " ++ schemaName ++ "(pyblitz.Schema):\n" ++
  "    \"\"\"" ++ schemaDesc ++ "\"\"\"\n" ++
  "    _propNames = " ++ propDefNames ++
  "    " ++ methodSep ++
  "    def __init__(self, " ++ propDefsParams ++ "):\n" ++
  "        super().__init__()\n" ++
  "        " ++ propDefsAssignments ++
  "    " ++ methodSep ++
  "    def _serialize(self):\n" ++
  "        serialDict = \x7b\n" ++
  "            propName: propVal\n" ++
  "            for propName in self._propNames\n" ++
  "            for propVal in [self.__dict__[propName]]\n" ++
  "            if propVal is not pyblitz.Schema.NoProp\n" ++
  "        \x7d\n" ++
  "        return serialDict" ++
  "    " ++ methodSep ++
  "    def _loadJsonDict(self, jsonDict, looseChecking):\n" ++
  "        for (propName, propVal) in jsonDict.items():\n" ++
  "            if propName in self._propNames:\n" ++
  "                self.__dict__[propName] = propVal\n" ++
  "            elif not looseChecking:\n" ++
  "                raise KeyError(f\"Unknown property '\x7bpropName\x7d' found when loading Schema\")"

/-- `_EndpointWriter._genSchemaModel(model)`, parameterized by the
iteration order the `propDefNames` set happens to have in the running
process (a permutation of `schemaPropNames model` chosen by the string
hash seed). -/
def genSchemaModel (model : PSchema) (setOrder : List String) : String :=
  let propDefsParamsStr :=
    pyIndent ("\n" ++ String.intercalate "\n"
      (model.props.map (fun p => p.name ++ ": Any = NoProp, "))) 2 ++
    pyIndent "\n" 1
  let propDefsAssignmentsStr :=
    pyIndent (String.intercalate "\n"
      (model.props.map (fun p =>
        "self." ++ p.name ++ " = " ++ p.name ++ "\n\"\"\"" ++ p.desc ++ "\"\"\""))) 2
  useSchemaTemplate model.name model.desc (reprPySet setOrder) genMethodSep
    propDefsParamsStr propDefsAssignmentsStr

/-- A schema with two properties, as parsed. -/
def twoPropSchema : PSchema :=
  ⟨"Thing", "A thing.",
    [("alpha", ⟨"alpha", "first"⟩), ("beta", ⟨"beta", "second"⟩)]⟩

/-- C2, counterexample: both orders below are iteration orders of the
same two-element `propDefNames` set, and the generated schema text
differs between them — so generation output is not a function of the
parse result alone, and two runs whose hash seeds order the set
differently produce different bytes. -/
theorem genSchemaModel_set_order_counterexample :
    List.Perm ["alpha", "beta"] (schemaPropNames twoPropSchema) ∧
    List.Perm ["beta", "alpha"] (schemaPropNames twoPropSchema) ∧
    genSchemaModel twoPropSchema ["alpha", "beta"] ≠
      genSchemaModel twoPropSchema ["beta", "alpha"] := by
  refine ⟨by decide, by decide, by decide⟩

/-- C2, amended: generation output depends on the parse result and, per
schema, on the iteration order of the generated `_propNames` set — and on
that order only through its printed form.  Runs that agree on the set's
iteration order (in particular, two generations within one process)
produce byte-identical output; across separate program runs the string
hash seed may reorder the set, so byte-identical output is not
guaranteed (the counterexample). -/
theorem genSchemaModel_deterministic_given_set_order (model : PSchema)
    (o₁ o₂ : List String) (h : reprPySet o₁ = reprPySet o₂) :
    genSchemaModel model o₁ = genSchemaModel model o₂ := by
  unfold genSchemaModel
  rw [h]

/-- Witness for C2's amended theorem: the same iteration order twice. -/
theorem genSchemaModel_deterministic_given_set_order_witness :
    genSchemaModel twoPropSchema ["alpha", "beta"] =
      genSchemaModel twoPropSchema ["alpha", "beta"] :=
  genSchemaModel_deterministic_given_set_order twoPropSchema
    ["alpha", "beta"] ["alpha", "beta"] rfl

end Pyblitz
